import Mathlib

/-! # finalSPA: the book resource server

A shallow embedding of `internal/data/books.go` (the book entity, its
validation rules and the store operations) and of the handlers of
`cmd/api/books.go`, followed by theorems about them.

The relational store is a value of type `DB` that every store operation takes
and returns. Go values of type `int32`/`int64` are integers (`Int`); the places
where the width matters (the conversion `int32(...)`, the store's
`version + 1`) carry it explicitly.
-/

namespace FinalSPA

/-! ## Machine integers -/

/-- Largest value of a Go `int32` and of a 32-bit integer column. -/
def maxInt32 : Int := 2147483647

/-- Go's conversion `int32(x)` of a wider integer: the low 32 bits, signed. -/
def int32 (x : Int) : Int := (x + 2147483648) % 4294967296 - 2147483648

/-! ## The book entity (`internal/data/books.go`) -/

/-- The struct `Books`. `CreatedAt` is a timestamp, kept as a number; `Pages`
has the type `data.Pages`, an integer. -/
structure Books where
  ID : Int
  CreatedAt : Int
  Title : String
  Year : Int
  Pages : Int
  Version : Int
deriving DecidableEq, Repr

/-- Go's `len(s)` of a string: its length in bytes. -/
def len (s : String) : Nat := s.utf8ByteSize

/-! ## Validator -/

/-- Modelled from the spec: the package `internal/validator` is not among the
sources. Section 4.1: a validator accumulates named check failures, a mapping
of field to message. The mapping is kept as a list of pairs with at most one
entry per field. -/
structure Validator where
  Errors : List (String × String)
deriving DecidableEq, Repr

namespace Validator

/-- Modelled from the spec: `validator.New()` of the absent validator package,
a fresh instance with no failure recorded. -/
def New : Validator := ⟨[]⟩

/-- The message recorded under a field, if any (Go: `v.Errors[key]`). -/
def lookup (v : Validator) (key : String) : Option String :=
  v.Errors.lookup key

/-- Modelled from the spec: `AddError` of the absent validator package; the
message is recorded only when no message exists for that field yet (first
failure per field wins). -/
def AddError (v : Validator) (key message : String) : Validator :=
  match v.lookup key with
  | some _ => v
  | none => ⟨v.Errors ++ [(key, message)]⟩

/-- Modelled from the spec: `Check(condition, field, message)` of the absent
validator package records `message` under `field` only when `condition` is
false. -/
def Check (v : Validator) (ok : Bool) (key message : String) : Validator :=
  if ok then v else v.AddError key message

/-- Modelled from the spec: `Valid()` of the absent validator package is true
iff no failures were recorded. -/
def Valid (v : Validator) : Bool := v.Errors.isEmpty

end Validator

/-- `ValidateBooks` of `internal/data/books.go`. `nowYear` is the value of
`time.Now().Year()` at the call. -/
def ValidateBooks (v : Validator) (nowYear : Int) (books : Books) : Validator :=
  let v := v.Check (books.Title != "") "title" "must be provided"
  let v := v.Check (decide (len books.Title ≤ 500)) "title" "must not be more than 500 bytes long"
  let v := v.Check (books.Year != 0) "year" "must be provided"
  let v := v.Check (decide (books.Year ≥ 1888)) "year" "must be greater than 1888"
  let v := v.Check (decide (books.Year ≤ int32 nowYear)) "year" "must not be in the future"
  let v := v.Check (books.Pages != 0) "pages" "must be provided"
  let v := v.Check (decide (books.Pages > 0)) "pages" "must be a positive integer"
  v

/-! ## The store (`BooksModel`) -/

/-- The errors a store operation returns: the two sentinels `ErrRecordNotFound`
and `ErrEditConflict`, and any other error of `database/sql` or of the driver,
carried with its message. -/
inductive Error where
  | ErrRecordNotFound
  | ErrEditConflict
  | sqlError (msg : String)
deriving DecidableEq, Repr

/-- The SQL statements of `internal/data/books.go` with their arguments, as
the store receives them. -/
inductive Stmt where
  | insertBooks (title : String) (year pages : Int)
  | selectComics (id : Int)
  | updateBooks (title : String) (year pages id version : Int)
  | deleteBooks (id : Int)
deriving DecidableEq, Repr

/-- The state of the relational store. `books` is the table the statements of
`Insert`, `Update` and `Delete` name; `comics` is the table the
statement of `Get` names, `none` when the database has no such relation.
`nextID` is the next value of the sequence behind `books.id`; `log` lists the
statements executed so far, oldest first. -/
structure DB where
  books : List Books
  comics : Option (List Books)
  nextID : Int
  log : List Stmt
deriving DecidableEq, Repr

namespace BooksModel

/-- `BooksModel.Insert`. Modelled from the spec: the schema of `books` is not
among the sources; by sections 3 and 4.4 the store assigns `id` (unique, from a
sequence), `created_at` (the store's clock, `now`) and `version = 1`, and a
constraint violation is a generic store error. Returns the error, the book as
`Scan` leaves it, and the store. -/
def Insert (db : DB) (now : Int) (books : Books) : Option Error × Books × DB :=
  let id := db.nextID
  let db1 : DB :=
    { db with nextID := id + 1,
              log := db.log ++ [Stmt.insertBooks books.Title books.Year books.Pages] }
  if db.books.any (fun r => r.ID == id) then
    (some (Error.sqlError "duplicate key value violates unique constraint"), books, db1)
  else
    (none, { books with ID := id, CreatedAt := now, Version := 1 },
      { db1 with books := db.books ++ [⟨id, now, books.Title, books.Year, books.Pages, 1⟩] })

/-- `BooksModel.Get`: `id < 1` is answered without a query; otherwise the row
of `comics` with that id, `sql.ErrNoRows` becoming `ErrRecordNotFound` and any
other error being returned as it is. -/
def Get (db : DB) (id : Int) : Except Error Books × DB :=
  if id < 1 then (Except.error Error.ErrRecordNotFound, db)
  else
    let db1 : DB := { db with log := db.log ++ [Stmt.selectComics id] }
    match db.comics with
    | none => (Except.error (Error.sqlError "relation comics does not exist"), db1)
    | some rows =>
      match rows.filter (fun r => r.ID == id) with
      | [] => (Except.error Error.ErrRecordNotFound, db1)
      | r :: _ => (Except.ok r, db1)

/-- `BooksModel.Update`: the conditional write
`UPDATE books SET ..., version = version + 1 WHERE id = $4 AND version = $5
RETURNING version`. Modelled from the spec: the schema of `books` is not among
the sources; `version` is a 32-bit integer (section 3, and the `int32` it is
scanned into), so `version + 1` beyond `maxInt32` is an "integer out of range"
error of the statement, which then changes nothing (in a wider column the
value would not fit the `int32` that `Scan` fills, an error as well). No
returned row is `sql.ErrNoRows`, hence `ErrEditConflict`; otherwise the
returned version is scanned into the book. -/
def Update (db : DB) (books : Books) : Option Error × Books × DB :=
  let db1 : DB :=
    { db with log := db.log ++
        [Stmt.updateBooks books.Title books.Year books.Pages books.ID books.Version] }
  let hit := fun (r : Books) => r.ID == books.ID && r.Version == books.Version
  if db.books.any (fun r => hit r && decide (r.Version + 1 > maxInt32)) then
    (some (Error.sqlError "integer out of range"), books, db1)
  else
    let rows := db.books.map (fun r =>
      if hit r then
        { r with Title := books.Title, Year := books.Year, Pages := books.Pages,
                 Version := r.Version + 1 }
      else r)
    match (db.books.filter hit).map (fun r => r.Version + 1) with
    | [] => (some Error.ErrEditConflict, books, { db1 with books := rows })
    | ver :: _ => (none, { books with Version := ver }, { db1 with books := rows })

/-- `BooksModel.Delete`: `id < 1` is answered without a statement; otherwise
`DELETE FROM books WHERE id = $1`, zero rows affected being
`ErrRecordNotFound`. -/
def Delete (db : DB) (id : Int) : Option Error × DB :=
  if id < 1 then (some Error.ErrRecordNotFound, db)
  else
    let kept := db.books.filter (fun r => r.ID != id)
    let rowsAffected := db.books.length - kept.length
    let db1 : DB := { db with books := kept, log := db.log ++ [Stmt.deleteBooks id] }
    if rowsAffected == 0 then (some Error.ErrRecordNotFound, db1) else (none, db1)

end BooksModel

/-! ## The handlers (`cmd/api/books.go`) -/

/-- What a handler writes to the `http.ResponseWriter`. The error helpers and
`writeJSON` are in files that are not among the sources. Modelled from the
spec: sections 4.5 and 6; `badRequest` is the 400 response, `notFound` 404,
`editConflict` 409, `failedValidation` 422 with the field-to-message mapping,
`serverError` 500; `envelope status key payload headers` is the JSON document
with the payload under `key`, as `writeJSON` writes it; `text` is bytes written
directly. -/
inductive Write where
  | badRequest
  | notFound
  | editConflict
  | failedValidation (errors : List (String × String))
  | serverError
  | envelope (status : Nat) (key : String) (payload : Books) (headers : List (String × String))
  | text (s : String)
deriving DecidableEq, Repr

/-- The result of running a handler: the writes to the response, in order, and
the store afterwards. -/
structure Outcome where
  writes : List Write
  db : DB
deriving DecidableEq, Repr

/-- The anonymous struct `input` of `createBooksHandler`. -/
structure CreateInput where
  Title : String
  Year : Int
  Pages : Int
deriving DecidableEq, Repr

/-- The anonymous struct `input` of `updateBooksHandler`: a nil pointer is
`none`. -/
structure UpdateInput where
  Title : Option String
  Year : Option Int
  Pages : Option Int
deriving DecidableEq, Repr

/-- The digits of `strconv`. -/
def digits : List Char := "0123456789abcdefghijklmnopqrstuvwxyz".toList

/-- The digit loop of `strconv.FormatInt`: the digits of `u` in `base`, most
significant first, put in front of `acc`. At most 65 digits are produced, the
size of the buffer in `strconv`. -/
def formatBits : Nat → Nat → Nat → List Char → List Char
  | 0, _, _, acc => acc
  | fuel + 1, u, base, acc =>
    if u < base then digits.getD u '0' :: acc
    else formatBits fuel (u / base) base (digits.getD (u % base) '0' :: acc)

/-- Go's `strconv.FormatInt(i, base)` for `2 ≤ base ≤ 36`. -/
def FormatInt (i : Int) (base : Nat) : String :=
  let ds := formatBits 65 i.natAbs base []
  String.mk (if i < 0 then '-' :: ds else ds)

/-- The text `fmt.Fprintf(w, "%+v\n", input)` writes for the input of
`createBooksHandler`. The type `data.Pages` is declared in a file that is not
among the sources; `fmtPages` is how `%+v` prints a value of it. -/
def fmtInput (fmtPages : Int → String) (input : CreateInput) : String :=
  "\x7bTitle:" ++ input.Title ++ " Year:" ++ toString input.Year ++ " Pages:" ++
    fmtPages input.Pages ++ "\x7d\n"

/-- `createBooksHandler`. `body` is what `readJSON` decodes from the request,
`none` when it returns an error; `now` is the store's clock and `nowYear` the
handler's calendar year. `writeJSON` is taken to succeed. -/
def createBooksHandler (db : DB) (now nowYear : Int) (fmtPages : Int → String)
    (body : Option CreateInput) : Outcome :=
  match body with
  | none => ⟨[Write.badRequest], db⟩
  | some input =>
    let books : Books := ⟨0, 0, input.Title, input.Year, input.Pages, 0⟩
    let v := ValidateBooks Validator.New nowYear books
    if !v.Valid then ⟨[Write.failedValidation v.Errors], db⟩
    else
      match BooksModel.Insert db now books with
      | (some _, _, db1) => ⟨[Write.serverError], db1⟩
      | (none, books, db1) =>
        ⟨[Write.envelope 201 "books" books [("Location", "/v1/books/" ++ toString books.ID)],
          Write.text (fmtInput fmtPages input)], db1⟩

/-- `updateBooksHandler`. `idParam` is what `readIDParam` returns (`none` on
an error), `expectedVersion` is `r.Header.Get("X-Expected-Version")` (the empty
string when the header is absent) and `body` is what `readJSON` decodes from
the request, `none` when it returns an error. `writeJSON` is taken to
succeed. -/
def updateBooksHandler (db : DB) (nowYear : Int) (idParam : Option Int)
    (expectedVersion : String) (body : Option UpdateInput) : Outcome :=
  match idParam with
  | none => ⟨[Write.notFound], db⟩
  | some id =>
    match BooksModel.Get db id with
    | (Except.error Error.ErrRecordNotFound, db1) => ⟨[Write.notFound], db1⟩
    | (Except.error _, db1) => ⟨[Write.serverError], db1⟩
    | (Except.ok books, db1) =>
      if expectedVersion != "" && FormatInt books.Version 32 != expectedVersion then
        ⟨[Write.editConflict], db1⟩
      else
        match body with
        | none => ⟨[Write.badRequest], db1⟩
        | some input =>
          let books := match input.Title with
            | some t => { books with Title := t }
            | none => books
          let books := match input.Year with
            | some y => { books with Year := y }
            | none => books
          let books := match input.Pages with
            | some p => { books with Pages := p }
            | none => books
          let v := ValidateBooks Validator.New nowYear books
          if !v.Valid then ⟨[Write.failedValidation v.Errors], db1⟩
          else
            match BooksModel.Update db1 books with
            | (some Error.ErrEditConflict, _, db2) => ⟨[Write.editConflict], db2⟩
            | (some _, _, db2) => ⟨[Write.serverError], db2⟩
            | (none, books, db2) => ⟨[Write.envelope 200 "books" books []], db2⟩

/-! ## Lemmas on the validator -/

/-- A check leaves the validator valid iff it was valid and the condition
holds. -/
theorem Validator.valid_Check (v : Validator) (ok : Bool) (key message : String) :
    (v.Check ok key message).Valid = (v.Valid && ok) := by
  cases ok with
  | true => simp [Validator.Check]
  | false =>
    obtain ⟨errs⟩ := v
    cases errs with
    | nil => simp [Validator.Check, Validator.AddError, Validator.lookup, Validator.Valid]
    | cons e es =>
      simp only [Validator.Check, Validator.AddError, Validator.Valid]
      cases Validator.lookup ⟨e :: es⟩ key <;> simp

/-- The message under a field after a check: the one already there, else the
message of this check when it is for that field and its condition is false. -/
theorem Validator.lookup_Check (v : Validator) (ok : Bool) (key message k : String) :
    (v.Check ok key message).lookup k =
      match v.lookup k with
      | some m => some m
      | none => if ok = false ∧ key = k then some message else none := by
  cases ok with
  | true =>
    simp only [Validator.Check]
    cases hk : v.lookup k <;> simp [hk]
  | false =>
    simp only [Validator.Check, Validator.AddError, if_false, Bool.false_eq_true]
    cases hkey : v.lookup key with
    | some m0 =>
      simp only
      cases hk : v.lookup k with
      | some m => rfl
      | none =>
        have : key ≠ k := by
          intro h; subst h; rw [hkey] at hk; cases hk
        simp [this]
    | none =>
      simp only [Validator.lookup, List.lookup_append] at *
      cases hk : List.lookup k v.Errors with
      | some m => simp
      | none =>
        by_cases h : key = k
        · subst h; simp [List.lookup]
        · have h2 : (k == key) = false := by
            simp only [beq_eq_false_iff_ne]; exact fun e => h e.symm
          simp [List.lookup, h, h2]

/-- A fresh validator has no message under any field. -/
theorem Validator.lookup_New (k : String) : Validator.New.lookup k = none := rfl

/-- The conversion `int32` keeps a value that fits 32 bits. -/
theorem int32_of_fits (x : Int) (h : -2147483648 ≤ x ∧ x ≤ 2147483647) : int32 x = x := by
  unfold int32; omega

/-- C3: on a fresh validator, `ValidateBooks` records no failure if and only if
the title is non-empty and at most 500 bytes long, the year lies between 1888
and the current calendar year, and pages is positive. In particular an empty
title, a year 0 or a non-positive pages value each fail, and the year 1888 is
accepted. The current calendar year is any year an `int32` can hold. -/
theorem ValidateBooks_valid_iff (nowYear : Int) (books : Books)
    (hnow : -2147483648 ≤ nowYear ∧ nowYear ≤ 2147483647) :
    ((ValidateBooks Validator.New nowYear books).Valid = true ↔
      (books.Title ≠ "" ∧ len books.Title ≤ 500 ∧
        1888 ≤ books.Year ∧ books.Year ≤ nowYear ∧ 0 < books.Pages)) ∧
    (books.Title = "" → (ValidateBooks Validator.New nowYear books).Valid = false) ∧
    (books.Year = 0 → (ValidateBooks Validator.New nowYear books).Valid = false) ∧
    (books.Pages ≤ 0 → (ValidateBooks Validator.New nowYear books).Valid = false) ∧
    (books.Year = 1888 → books.Title ≠ "" → len books.Title ≤ 500 → 0 < books.Pages →
      1888 ≤ nowYear → (ValidateBooks Validator.New nowYear books).Valid = true) := by
  have key : (ValidateBooks Validator.New nowYear books).Valid = true ↔
      (books.Title ≠ "" ∧ len books.Title ≤ 500 ∧
        1888 ≤ books.Year ∧ books.Year ≤ nowYear ∧ 0 < books.Pages) := by
    simp only [ValidateBooks, Validator.valid_Check, int32_of_fits nowYear hnow]
    simp only [Validator.New, Validator.Valid, List.isEmpty_nil, Bool.true_and,
      Bool.and_eq_true, bne_iff_ne, decide_eq_true_eq, ne_eq]
    constructor
    · rintro ⟨⟨⟨⟨⟨⟨h1, h2⟩, h3⟩, h4⟩, h5⟩, h6⟩, h7⟩
      exact ⟨h1, h2, h4, h5, h7⟩
    · rintro ⟨h1, h2, h4, h5, h7⟩
      refine ⟨⟨⟨⟨⟨⟨h1, h2⟩, ?_⟩, h4⟩, h5⟩, ?_⟩, h7⟩ <;> omega
  refine ⟨key, ?_, ?_, ?_, ?_⟩
  · intro h
    rw [Bool.eq_false_iff]
    intro hv
    exact (key.mp hv).1 h
  · intro h
    rw [Bool.eq_false_iff]
    intro hv
    have := (key.mp hv).2.2.1
    omega
  · intro h
    rw [Bool.eq_false_iff]
    intro hv
    have := (key.mp hv).2.2.2.2
    omega
  · intro hy ht hl hp hn
    exact key.mpr ⟨ht, hl, by omega, by omega, hp⟩

/-- C3, at the book ("Dune", 1888, 412) in the year 2024: the year fits an
`int32` and the book passes. -/
theorem ValidateBooks_valid_iff_witness :
    ((-2147483648 : Int) ≤ 2024 ∧ (2024 : Int) ≤ 2147483647) ∧
    (ValidateBooks Validator.New 2024 ⟨0, 0, "Dune", 1888, 412, 0⟩).Valid = true :=
  ⟨by decide, (ValidateBooks_valid_iff 2024 ⟨0, 0, "Dune", 1888, 412, 0⟩ (by decide)).2.2.2.2
    rfl (by decide) (by decide) (by decide) (by decide)⟩

/-- C8: after `ValidateBooks` on a fresh validator the failure map holds, under
"title", "must be provided" for an empty title, "must not be more than 500
bytes long" for a title longer than 500 bytes and nothing otherwise; under
"year", "must be provided" for year 0, "must be greater than 1888" for a
non-zero year below 1888, "must not be in the future" for a year after the
current one and nothing otherwise; under "pages", "must be provided" for 0,
"must be a positive integer" for a negative value and nothing otherwise; the
three fields are reported independently of each other and no other key is
present. The current calendar year is 1888 or later and fits an `int32`. -/
theorem ValidateBooks_failure_map (nowYear : Int) (books : Books)
    (hnow : 1888 ≤ nowYear ∧ nowYear ≤ 2147483647) :
    (books.Title = "" →
      (ValidateBooks Validator.New nowYear books).lookup "title" = some "must be provided") ∧
    (500 < len books.Title →
      (ValidateBooks Validator.New nowYear books).lookup "title" =
        some "must not be more than 500 bytes long") ∧
    (books.Title ≠ "" → len books.Title ≤ 500 →
      (ValidateBooks Validator.New nowYear books).lookup "title" = none) ∧
    (books.Year = 0 →
      (ValidateBooks Validator.New nowYear books).lookup "year" = some "must be provided") ∧
    (books.Year ≠ 0 → books.Year < 1888 →
      (ValidateBooks Validator.New nowYear books).lookup "year" =
        some "must be greater than 1888") ∧
    (nowYear < books.Year →
      (ValidateBooks Validator.New nowYear books).lookup "year" =
        some "must not be in the future") ∧
    (1888 ≤ books.Year → books.Year ≤ nowYear →
      (ValidateBooks Validator.New nowYear books).lookup "year" = none) ∧
    (books.Pages = 0 →
      (ValidateBooks Validator.New nowYear books).lookup "pages" = some "must be provided") ∧
    (books.Pages < 0 →
      (ValidateBooks Validator.New nowYear books).lookup "pages" =
        some "must be a positive integer") ∧
    (0 < books.Pages →
      (ValidateBooks Validator.New nowYear books).lookup "pages" = none) ∧
    (∀ k : String, k ≠ "title" → k ≠ "year" → k ≠ "pages" →
      (ValidateBooks Validator.New nowYear books).lookup k = none) := by
  have hfit : int32 nowYear = nowYear := int32_of_fits nowYear ⟨by omega, hnow.2⟩
  have hempty : len "" = 0 := by decide
  refine ⟨?_, ?_, ?_, ?_, ?_, ?_, ?_, ?_, ?_, ?_, ?_⟩
  · intro h
    simp [ValidateBooks, Validator.lookup_Check, Validator.lookup_New, h]
  · intro h
    have hne : books.Title ≠ "" := by
      intro e; rw [e, hempty] at h; omega
    simp [ValidateBooks, Validator.lookup_Check, Validator.lookup_New, hne, h]
  · intro h1 h2
    simp [ValidateBooks, Validator.lookup_Check, Validator.lookup_New, h1, h2]
  · intro h
    simp [ValidateBooks, Validator.lookup_Check, Validator.lookup_New, h]
  · intro h1 h2
    simp [ValidateBooks, Validator.lookup_Check, Validator.lookup_New, h1, h2]
  · intro h
    have h0 : books.Year ≠ 0 := by omega
    have h1 : 1888 ≤ books.Year := by omega
    simp [ValidateBooks, Validator.lookup_Check, Validator.lookup_New, hfit, h0, h1, h]
  · intro h1 h2
    have h0 : books.Year ≠ 0 := by omega
    simp [ValidateBooks, Validator.lookup_Check, Validator.lookup_New, hfit, h0, h1, h2]
  · intro h
    simp [ValidateBooks, Validator.lookup_Check, Validator.lookup_New, h]
  · intro h
    have h0 : books.Pages ≠ 0 := by omega
    have h1 : ¬ 0 < books.Pages := by omega
    simp [ValidateBooks, Validator.lookup_Check, Validator.lookup_New, h0, h1]
  · intro h
    have h0 : books.Pages ≠ 0 := by omega
    simp [ValidateBooks, Validator.lookup_Check, Validator.lookup_New, h0, h]
  · intro k h1 h2 h3
    simp [ValidateBooks, Validator.lookup_Check, Validator.lookup_New, Ne.symm h1, Ne.symm h2,
      Ne.symm h3]

/-- C8, at the book ("", 1500, -3) in the year 2024: all three fields are
reported together. -/
theorem ValidateBooks_failure_map_witness :
    ((1888 : Int) ≤ 2024 ∧ (2024 : Int) ≤ 2147483647) ∧
    (ValidateBooks Validator.New 2024 ⟨0, 0, "", 1500, -3, 0⟩).lookup "title" =
      some "must be provided" ∧
    (ValidateBooks Validator.New 2024 ⟨0, 0, "", 1500, -3, 0⟩).lookup "year" =
      some "must be greater than 1888" ∧
    (ValidateBooks Validator.New 2024 ⟨0, 0, "", 1500, -3, 0⟩).lookup "pages" =
      some "must be a positive integer" :=
  have h := ValidateBooks_failure_map 2024 ⟨0, 0, "", 1500, -3, 0⟩ (by decide)
  ⟨by decide, h.1 rfl, h.2.2.2.2.1 (by decide) (by decide),
    h.2.2.2.2.2.2.2.2.1 (by decide)⟩

/-! ## The conditional write -/

/-- Under a stale version no row meets the `WHERE` clause of `Update`. -/
theorem Update_no_hit (db : DB) (books : Books)
    (hstale : ∀ r ∈ db.books, r.ID = books.ID → r.Version ≠ books.Version) :
    ∀ r ∈ db.books, (r.ID == books.ID && r.Version == books.Version) = false := by
  intro r hr
  by_cases h : r.ID = books.ID
  · have := hstale r hr h
    simp [h, this]
  · simp [h]

/-- C1: when no row of `books` has both the book's id and the book's version
(the version passed in is not the one stored for that id), `Update` returns
`ErrEditConflict`, the table is what it was before the call, and the
in-memory book is untouched. -/
theorem Update_stale_version (db : DB) (books : Books)
    (hstale : ∀ r ∈ db.books, r.ID = books.ID → r.Version ≠ books.Version) :
    (BooksModel.Update db books).1 = some Error.ErrEditConflict ∧
    (BooksModel.Update db books).2.2.books = db.books ∧
    (BooksModel.Update db books).2.2.comics = db.comics ∧
    (BooksModel.Update db books).2.1 = books := by
  have hno := Update_no_hit db books hstale
  have hany : db.books.any (fun r => (r.ID == books.ID && r.Version == books.Version) &&
      decide (r.Version + 1 > maxInt32)) = false := by
    rw [List.any_eq_false]
    intro r hr
    simp [hno r hr]
  have hfilter : db.books.filter (fun r => r.ID == books.ID && r.Version == books.Version) = [] := by
    rw [List.filter_eq_nil_iff]
    intro r hr
    simp [hno r hr]
  have hmap : db.books.map (fun r =>
      if (r.ID == books.ID && r.Version == books.Version) = true then
        { r with Title := books.Title, Year := books.Year, Pages := books.Pages,
                 Version := r.Version + 1 }
      else r) = db.books := by
    conv_rhs => rw [← List.map_id db.books]
    apply List.map_congr_left
    intro r hr
    simp [hno r hr]
  simp only [BooksModel.Update, hany, hfilter, hmap, List.map_nil]
  simp

/-- C1, at a store holding book 7 in version 3 and an update carrying the
stale version 2. -/
theorem Update_stale_version_witness :
    (∀ r ∈ (⟨[⟨7, 0, "Dune", 1965, 412, 3⟩], none, 8, []⟩ : DB).books,
      r.ID = (⟨7, 0, "Dune II", 1966, 500, 2⟩ : Books).ID →
      r.Version ≠ (⟨7, 0, "Dune II", 1966, 500, 2⟩ : Books).Version) ∧
    (BooksModel.Update ⟨[⟨7, 0, "Dune", 1965, 412, 3⟩], none, 8, []⟩
      ⟨7, 0, "Dune II", 1966, 500, 2⟩).1 = some Error.ErrEditConflict ∧
    (BooksModel.Update ⟨[⟨7, 0, "Dune", 1965, 412, 3⟩], none, 8, []⟩
      ⟨7, 0, "Dune II", 1966, 500, 2⟩).2.2.books = [⟨7, 0, "Dune", 1965, 412, 3⟩] :=
  have hst : ∀ r ∈ (⟨[⟨7, 0, "Dune", 1965, 412, 3⟩], none, 8, []⟩ : DB).books,
      r.ID = (⟨7, 0, "Dune II", 1966, 500, 2⟩ : Books).ID →
      r.Version ≠ (⟨7, 0, "Dune II", 1966, 500, 2⟩ : Books).Version := by
    intro r hr _
    simp only [List.mem_singleton] at hr
    subst hr
    decide
  have h := Update_stale_version ⟨[⟨7, 0, "Dune", 1965, 412, 3⟩], none, 8, []⟩
    ⟨7, 0, "Dune II", 1966, 500, 2⟩ hst
  ⟨hst, h.1, h.2.1⟩

/-- C2 fails as stated: the store holds book 7 in version 2147483647 and the
update carries that very version, yet `Update` returns an error (the store's
`version + 1` is out of range) and the row keeps its version. -/
theorem Update_current_version_counterexample :
    (⟨7, 0, "Dune", 1965, 412, 2147483647⟩ : Books) ∈
      (⟨[⟨7, 0, "Dune", 1965, 412, 2147483647⟩], none, 8, []⟩ : DB).books ∧
    (BooksModel.Update ⟨[⟨7, 0, "Dune", 1965, 412, 2147483647⟩], none, 8, []⟩
      ⟨7, 0, "Dune II", 1966, 500, 2147483647⟩).1 =
        some (Error.sqlError "integer out of range") ∧
    (BooksModel.Update ⟨[⟨7, 0, "Dune", 1965, 412, 2147483647⟩], none, 8, []⟩
      ⟨7, 0, "Dune II", 1966, 500, 2147483647⟩).2.2.books =
        [⟨7, 0, "Dune", 1965, 412, 2147483647⟩] := by
  decide

/-- C2, amended: when the table holds a row `r` for the book's id, the only
one for that id, whose version equals the book's version and is below
2147483647, `Update` returns no error; afterwards the table holds for that id
exactly the row with the book's title, year and pages, the id and creation
time of `r` and the version of `r` plus one; the in-memory book's version is
that new version; rows of other ids are what they were. -/
theorem Update_current_version (db : DB) (books r : Books)
    (hr : r ∈ db.books) (hid : r.ID = books.ID) (hver : r.Version = books.Version)
    (hkey : ∀ r2 ∈ db.books, r2.ID = books.ID → r2 = r)
    (hmax : r.Version < maxInt32) :
    (BooksModel.Update db books).1 = none ∧
    (BooksModel.Update db books).2.1 = { books with Version := r.Version + 1 } ∧
    (⟨r.ID, r.CreatedAt, books.Title, books.Year, books.Pages, r.Version + 1⟩ : Books) ∈
      (BooksModel.Update db books).2.2.books ∧
    (∀ r2 ∈ (BooksModel.Update db books).2.2.books, r2.ID = books.ID →
      r2 = ⟨r.ID, r.CreatedAt, books.Title, books.Year, books.Pages, r.Version + 1⟩) ∧
    (BooksModel.Update db books).2.2.books.filter (fun r2 => r2.ID != books.ID) =
      db.books.filter (fun r2 => r2.ID != books.ID) := by
  have hhit : ∀ r2 ∈ db.books,
      (r2.ID == books.ID && r2.Version == books.Version) = true → r2 = r := by
    intro r2 h2 h
    simp only [Bool.and_eq_true, beq_iff_eq] at h
    exact hkey r2 h2 h.1
  have hany : db.books.any (fun r => (r.ID == books.ID && r.Version == books.Version) &&
      decide (r.Version + 1 > maxInt32)) = false := by
    rw [List.any_eq_false]
    intro r2 h2
    by_cases h : (r2.ID == books.ID && r2.Version == books.Version) = true
    · have := hhit r2 h2 h
      subst this
      simp only [h, Bool.true_and, decide_eq_true_eq, gt_iff_lt, not_lt]
      omega
    · simp [h]
  have hrhit : (r.ID == books.ID && r.Version == books.Version) = true := by
    simp [hid, hver]
  obtain ⟨ver, rest, hret⟩ : ∃ ver rest,
      (db.books.filter (fun r => r.ID == books.ID && r.Version == books.Version)).map
        (fun r => r.Version + 1) = ver :: rest := by
    cases hf : db.books.filter (fun r => r.ID == books.ID && r.Version == books.Version) with
    | nil =>
      have : r ∈ db.books.filter (fun r => r.ID == books.ID && r.Version == books.Version) :=
        List.mem_filter.mpr ⟨hr, hrhit⟩
      rw [hf] at this
      cases this
    | cons a as => exact ⟨a.Version + 1, as.map (fun r : Books => r.Version + 1), rfl⟩
  have hverEq : ver = r.Version + 1 := by
    have hmem : ver ∈ (db.books.filter
        (fun r => r.ID == books.ID && r.Version == books.Version)).map
        (fun r => r.Version + 1) := by
      rw [hret]; exact List.mem_cons_self _ _
    obtain ⟨a, ha, hav⟩ := List.mem_map.mp hmem
    have ha2 := List.mem_filter.mp ha
    have := hhit a ha2.1 ha2.2
    subst this
    exact hav.symm
  subst hverEq
  simp only [BooksModel.Update, hany, hret]
  refine ⟨rfl, rfl, ?_, ?_, ?_⟩
  · simp only [Bool.false_eq_true, if_false]
    apply List.mem_map.mpr
    exact ⟨r, hr, by simp [hrhit]⟩
  · simp only [Bool.false_eq_true, if_false]
    intro r2 h2 hid2
    obtain ⟨a, ha, hav⟩ := List.mem_map.mp h2
    by_cases h : (a.ID == books.ID && a.Version == books.Version) = true
    · have := hhit a ha h
      subst this
      rw [if_pos h] at hav
      exact hav.symm
    · rw [if_neg h] at hav
      subst hav
      have := hkey a ha hid2
      subst this
      exact absurd hrhit h
  · simp only [Bool.false_eq_true, if_false]
    rw [List.filter_map]
    conv_rhs => rw [← List.map_id (db.books.filter (fun r2 => r2.ID != books.ID))]
    have hfil : List.filter ((fun r2 : Books => r2.ID != books.ID) ∘ fun r =>
        if (r.ID == books.ID && r.Version == books.Version) = true then
          { r with Title := books.Title, Year := books.Year, Pages := books.Pages,
                   Version := r.Version + 1 }
        else r) db.books = List.filter (fun r2 => r2.ID != books.ID) db.books := by
      apply List.filter_congr
      intro a _
      simp only [Function.comp]
      split <;> rfl
    rw [hfil]
    apply List.map_congr_left
    intro a ha
    have ha2 := List.mem_filter.mp ha
    have hne : a.ID ≠ books.ID := by simpa using ha2.2
    simp [hne]

/-- C2, amended, at a store holding book 7 in version 3 and an update carrying
version 3: the row becomes ("Dune II", 1966, 500) in version 4. -/
theorem Update_current_version_witness :
    (3 : Int) < maxInt32 ∧
    (BooksModel.Update ⟨[⟨7, 0, "Dune", 1965, 412, 3⟩], none, 8, []⟩
      ⟨7, 0, "Dune II", 1966, 500, 3⟩).1 = none ∧
    (BooksModel.Update ⟨[⟨7, 0, "Dune", 1965, 412, 3⟩], none, 8, []⟩
      ⟨7, 0, "Dune II", 1966, 500, 3⟩).2.1 = ⟨7, 0, "Dune II", 1966, 500, 4⟩ ∧
    (⟨7, 0, "Dune II", 1966, 500, 4⟩ : Books) ∈
      (BooksModel.Update ⟨[⟨7, 0, "Dune", 1965, 412, 3⟩], none, 8, []⟩
        ⟨7, 0, "Dune II", 1966, 500, 3⟩).2.2.books :=
  have h := Update_current_version ⟨[⟨7, 0, "Dune", 1965, 412, 3⟩], none, 8, []⟩
    ⟨7, 0, "Dune II", 1966, 500, 3⟩ ⟨7, 0, "Dune", 1965, 412, 3⟩
    (List.mem_singleton.mpr rfl) rfl rfl
    (fun r2 h2 _ => List.mem_singleton.mp h2) (by decide)
  ⟨by decide, h.1, h.2.1, h.2.2.1⟩

/-! ## The update handler -/

/-- A successful `Get` has sent one `SELECT` and changed nothing else. -/
theorem Get_ok_db (db db1 : DB) (id : Int) (b : Books)
    (hget : BooksModel.Get db id = (Except.ok b, db1)) :
    db1 = { db with log := db.log ++ [Stmt.selectComics id] } := by
  unfold BooksModel.Get at hget
  split at hget
  · cases hget
  · split at hget
    · cases hget
    · split at hget
      · cases hget
      · simp only [Prod.mk.injEq] at hget
        exact hget.2.symm

/-- `Update` always sends its statement, whatever the result. -/
theorem Update_log (db : DB) (books : Books) :
    (BooksModel.Update db books).2.2.log =
      db.log ++ [Stmt.updateBooks books.Title books.Year books.Pages books.ID books.Version] := by
  unfold BooksModel.Update
  simp only
  split
  · rfl
  · split <;> rfl

/-- The record `updateBooksHandler` validates and hands to `Update`: the
fetched record `b` with the fields present in the input written over it. -/
theorem updateBooksHandler_after_fetch (db db1 : DB) (nowYear id : Int) (hdr : String)
    (input : UpdateInput) (b : Books)
    (hget : BooksModel.Get db id = (Except.ok b, db1))
    (hpre : hdr = "" ∨ FormatInt b.Version 32 = hdr) :
    updateBooksHandler db nowYear (some id) hdr (some input) =
      (let m : Books := ⟨b.ID, b.CreatedAt, input.Title.getD b.Title, input.Year.getD b.Year,
          input.Pages.getD b.Pages, b.Version⟩
       let v := ValidateBooks Validator.New nowYear m
       if v.Valid = true then
         match BooksModel.Update db1 m with
         | (some Error.ErrEditConflict, _, db2) => ⟨[Write.editConflict], db2⟩
         | (some _, _, db2) => ⟨[Write.serverError], db2⟩
         | (none, books, db2) => ⟨[Write.envelope 200 "books" books []], db2⟩
       else ⟨[Write.failedValidation v.Errors], db1⟩) := by
  have hcond : (hdr != "" && FormatInt b.Version 32 != hdr) = false := by
    rcases hpre with h | h
    · simp [h]
    · simp [h]
  obtain ⟨t, y, p⟩ := input
  obtain ⟨bid, bc, bt, byr, bp, bv⟩ := b
  simp only [updateBooksHandler, hget, hcond, Bool.false_eq_true, if_false]
  cases t <;> cases y <;> cases p <;> simp only [Option.getD] <;>
    (split <;> simp_all)

/-- `Update` changes nothing of the in-memory book but its version. -/
theorem Update_book_fields (db : DB) (books : Books) :
    (BooksModel.Update db books).2.1.ID = books.ID ∧
    (BooksModel.Update db books).2.1.CreatedAt = books.CreatedAt ∧
    (BooksModel.Update db books).2.1.Title = books.Title ∧
    (BooksModel.Update db books).2.1.Year = books.Year ∧
    (BooksModel.Update db books).2.1.Pages = books.Pages := by
  unfold BooksModel.Update
  simp only
  split
  · exact ⟨rfl, rfl, rfl, rfl, rfl⟩
  · split <;> exact ⟨rfl, rfl, rfl, rfl, rfl⟩

/-- C4: in `updateBooksHandler`, once the record `b` is fetched, the
precondition on the expected version is met (or the header is absent) and the
input is decoded, there is a record `m` with each of title, year and pages
equal to the input's value when present and to that of `b` when absent, and
with the id, creation time and version of `b`, such that the handler does
exactly this: it validates `m` and, when `m` passes, calls `Update` on `m` and
answers from its result, and when `m` fails, answers FailedValidation with the
failure map of `m`. So when `m` passes, the `UPDATE` statement for `m` is sent,
the store is the one `Update` leaves, and on success the record in the response
has the id and creation time of `b` and the title, year and pages of `m`; when
`m` fails, no statement is sent after the fetch and the table is as it was. -/
theorem updateBooksHandler_merge (db db1 : DB) (nowYear id : Int) (hdr : String)
    (input : UpdateInput) (b : Books)
    (hget : BooksModel.Get db id = (Except.ok b, db1))
    (hpre : hdr = "" ∨ FormatInt b.Version 32 = hdr) :
    ∃ m : Books,
      (m.Title = match input.Title with
        | some t => t
        | none => b.Title) ∧
      (m.Year = match input.Year with
        | some y => y
        | none => b.Year) ∧
      (m.Pages = match input.Pages with
        | some p => p
        | none => b.Pages) ∧
      m.ID = b.ID ∧ m.CreatedAt = b.CreatedAt ∧ m.Version = b.Version ∧
      updateBooksHandler db nowYear (some id) hdr (some input) =
        (if (ValidateBooks Validator.New nowYear m).Valid = true then
          match BooksModel.Update db1 m with
          | (some Error.ErrEditConflict, _, db2) => ⟨[Write.editConflict], db2⟩
          | (some _, _, db2) => ⟨[Write.serverError], db2⟩
          | (none, books, db2) => ⟨[Write.envelope 200 "books" books []], db2⟩
        else
          ⟨[Write.failedValidation (ValidateBooks Validator.New nowYear m).Errors], db1⟩) ∧
      ((ValidateBooks Validator.New nowYear m).Valid = true →
        (updateBooksHandler db nowYear (some id) hdr (some input)).db =
          (BooksModel.Update db1 m).2.2 ∧
        (updateBooksHandler db nowYear (some id) hdr (some input)).db.log =
          db.log ++ [Stmt.selectComics id,
            Stmt.updateBooks m.Title m.Year m.Pages m.ID m.Version] ∧
        ((BooksModel.Update db1 m).1 = none →
          (updateBooksHandler db nowYear (some id) hdr (some input)).writes =
            [Write.envelope 200 "books"
              ⟨b.ID, b.CreatedAt, m.Title, m.Year, m.Pages,
                (BooksModel.Update db1 m).2.1.Version⟩ []])) ∧
      ((ValidateBooks Validator.New nowYear m).Valid = false →
        (updateBooksHandler db nowYear (some id) hdr (some input)).writes =
          [Write.failedValidation (ValidateBooks Validator.New nowYear m).Errors] ∧
        (updateBooksHandler db nowYear (some id) hdr (some input)).db.books = db.books ∧
        (updateBooksHandler db nowYear (some id) hdr (some input)).db.log =
          db.log ++ [Stmt.selectComics id]) := by
  have hdb1 := Get_ok_db db db1 id b hget
  have heq := updateBooksHandler_after_fetch db db1 nowYear id hdr input b hget hpre
  refine ⟨⟨b.ID, b.CreatedAt, input.Title.getD b.Title, input.Year.getD b.Year,
    input.Pages.getD b.Pages, b.Version⟩, ?_, ?_, ?_, rfl, rfl, rfl, heq, ?_, ?_⟩
  · cases input.Title <;> rfl
  · cases input.Year <;> rfl
  · cases input.Pages <;> rfl
  · intro hv
    have hfields := Update_book_fields db1 ⟨b.ID, b.CreatedAt, input.Title.getD b.Title,
      input.Year.getD b.Year, input.Pages.getD b.Pages, b.Version⟩
    have hlog := Update_log db1 ⟨b.ID, b.CreatedAt, input.Title.getD b.Title,
      input.Year.getD b.Year, input.Pages.getD b.Pages, b.Version⟩
    rw [heq]
    simp only [hv, if_true]
    rcases hupd : BooksModel.Update db1 ⟨b.ID, b.CreatedAt, input.Title.getD b.Title,
      input.Year.getD b.Year, input.Pages.getD b.Pages, b.Version⟩ with ⟨e, b2, db2⟩
    rw [hupd] at hfields hlog
    simp only at hfields hlog
    have hlog2 : db2.log = db.log ++ [Stmt.selectComics id,
        Stmt.updateBooks (input.Title.getD b.Title) (input.Year.getD b.Year)
          (input.Pages.getD b.Pages) b.ID b.Version] := by
      rw [hlog, hdb1]
      simp
    cases e with
    | none =>
      refine ⟨rfl, hlog2, ?_⟩
      intro _
      obtain ⟨i2, c2, t2, y2, p2, v2⟩ := b2
      simp only at hfields
      obtain ⟨h1, h2, h3, h4, h5⟩ := hfields
      subst h1 h2 h3 h4 h5
      rfl
    | some err =>
      cases err with
      | ErrRecordNotFound => exact ⟨rfl, hlog2, fun h => by cases h⟩
      | ErrEditConflict => exact ⟨rfl, hlog2, fun h => by cases h⟩
      | sqlError msg => exact ⟨rfl, hlog2, fun h => by cases h⟩
  · intro hv
    rw [heq]
    simp [hv, hdb1]

/-- C4, at a store whose fetched record is book 7 ("Dune", 1965, 412, created
at 55, version 3), with no expected-version header and an input that sets only
the year, to 1966: the statement sent is the `UPDATE` of ("Dune", 1966, 412)
for id 7 at version 3, and the response carries book 7 with its creation time
55, the new year and version 4. -/
theorem updateBooksHandler_merge_witness :
    BooksModel.Get
      ⟨[⟨7, 55, "Dune", 1965, 412, 3⟩], some [⟨7, 55, "Dune", 1965, 412, 3⟩], 8, []⟩ 7 =
      (Except.ok ⟨7, 55, "Dune", 1965, 412, 3⟩,
        ⟨[⟨7, 55, "Dune", 1965, 412, 3⟩], some [⟨7, 55, "Dune", 1965, 412, 3⟩], 8,
          [Stmt.selectComics 7]⟩) ∧
    (updateBooksHandler
      ⟨[⟨7, 55, "Dune", 1965, 412, 3⟩], some [⟨7, 55, "Dune", 1965, 412, 3⟩], 8, []⟩
      2024 (some 7) "" (some ⟨none, some 1966, none⟩)).db.log =
      [Stmt.selectComics 7, Stmt.updateBooks "Dune" 1966 412 7 3] ∧
    (updateBooksHandler
      ⟨[⟨7, 55, "Dune", 1965, 412, 3⟩], some [⟨7, 55, "Dune", 1965, 412, 3⟩], 8, []⟩
      2024 (some 7) "" (some ⟨none, some 1966, none⟩)).writes =
      [Write.envelope 200 "books" ⟨7, 55, "Dune", 1966, 412, 4⟩ []] := by
  refine ⟨rfl, ?_⟩
  obtain ⟨m, ht, hy, hp, hid, hc, hv, _, hvalid, _⟩ := updateBooksHandler_merge
    ⟨[⟨7, 55, "Dune", 1965, 412, 3⟩], some [⟨7, 55, "Dune", 1965, 412, 3⟩], 8, []⟩
    ⟨[⟨7, 55, "Dune", 1965, 412, 3⟩], some [⟨7, 55, "Dune", 1965, 412, 3⟩], 8,
      [Stmt.selectComics 7]⟩
    2024 7 "" ⟨none, some 1966, none⟩ ⟨7, 55, "Dune", 1965, 412, 3⟩ rfl (Or.inl rfl)
  have hm : m = ⟨7, 55, "Dune", 1966, 412, 3⟩ := by
    obtain ⟨a, b, c, d, e, f⟩ := m
    simp only at ht hy hp hid hc hv
    subst ht hy hp hid hc hv
    rfl
  subst hm
  have h := hvalid (by decide)
  exact ⟨by simpa using h.2.1, h.2.2 (by decide)⟩

/-- C5: the precondition renders the record's version in base 32 before
comparing it with the header. The fetched record is in version 12 and the
header carries "12": the rendered version is "c", the handler answers
EditConflict and sends nothing after the fetch. The fetched record is in
version 34 and the header carries "12": the rendered version is "12", the
check passes and the update is applied. -/
theorem updateBooksHandler_expected_version_base32 :
    FormatInt 12 32 = "c" ∧
    updateBooksHandler
      ⟨[⟨7, 0, "Dune", 1965, 412, 12⟩], some [⟨7, 0, "Dune", 1965, 412, 12⟩], 8, []⟩
      2024 (some 7) "12" (some ⟨none, some 1966, none⟩) =
      ⟨[Write.editConflict],
        ⟨[⟨7, 0, "Dune", 1965, 412, 12⟩], some [⟨7, 0, "Dune", 1965, 412, 12⟩], 8,
          [Stmt.selectComics 7]⟩⟩ ∧
    FormatInt 34 32 = "12" ∧
    (updateBooksHandler
      ⟨[⟨7, 0, "Dune", 1965, 412, 34⟩], some [⟨7, 0, "Dune", 1965, 412, 34⟩], 8, []⟩
      2024 (some 7) "12" (some ⟨none, some 1966, none⟩)).writes =
      [Write.envelope 200 "books" ⟨7, 0, "Dune", 1966, 412, 35⟩ []] := by
  decide

/-- C6: `Insert` writes to `books` and `Get` reads `comics`. On an empty
store the valid book ("Dune", 1965, 412) is inserted with id 1 and version 1;
`Get` on id 1 then returns an error, a generic one when the database has no
relation `comics` and `ErrRecordNotFound` when that table is empty. -/
theorem Insert_then_Get_other_table :
    (ValidateBooks Validator.New 2024 ⟨0, 0, "Dune", 1965, 412, 0⟩).Valid = true ∧
    BooksModel.Insert ⟨[], none, 1, []⟩ 99 ⟨0, 0, "Dune", 1965, 412, 0⟩ =
      (none, ⟨1, 99, "Dune", 1965, 412, 1⟩,
        ⟨[⟨1, 99, "Dune", 1965, 412, 1⟩], none, 2, [Stmt.insertBooks "Dune" 1965 412]⟩) ∧
    (BooksModel.Get
      ⟨[⟨1, 99, "Dune", 1965, 412, 1⟩], none, 2, [Stmt.insertBooks "Dune" 1965 412]⟩ 1).1 =
      Except.error (Error.sqlError "relation comics does not exist") ∧
    BooksModel.Insert ⟨[], some [], 1, []⟩ 99 ⟨0, 0, "Dune", 1965, 412, 0⟩ =
      (none, ⟨1, 99, "Dune", 1965, 412, 1⟩,
        ⟨[⟨1, 99, "Dune", 1965, 412, 1⟩], some [], 2, [Stmt.insertBooks "Dune" 1965 412]⟩) ∧
    (BooksModel.Get
      ⟨[⟨1, 99, "Dune", 1965, 412, 1⟩], some [], 2, [Stmt.insertBooks "Dune" 1965 412]⟩ 1).1 =
      Except.error Error.ErrRecordNotFound :=
  ⟨by decide, by decide, rfl, by decide, rfl⟩

/-- C7: `Delete` removes the row from `books` and `Get` reads `comics`. The
store holds book 7 in `books`; `Delete` on 7 returns no error and empties the
table; `Get` on 7 then returns a generic error when the database has no
relation `comics`, and still returns a record when `comics` holds a row with
id 7. -/
theorem Delete_then_Get_other_table :
    BooksModel.Delete ⟨[⟨7, 0, "Dune", 1965, 412, 1⟩], none, 8, []⟩ 7 =
      (none, ⟨[], none, 8, [Stmt.deleteBooks 7]⟩) ∧
    (BooksModel.Get ⟨[], none, 8, [Stmt.deleteBooks 7]⟩ 7).1 =
      Except.error (Error.sqlError "relation comics does not exist") ∧
    BooksModel.Delete
      ⟨[⟨7, 0, "Dune", 1965, 412, 1⟩], some [⟨7, 0, "Maus", 1991, 296, 1⟩], 8, []⟩ 7 =
      (none, ⟨[], some [⟨7, 0, "Maus", 1991, 296, 1⟩], 8, [Stmt.deleteBooks 7]⟩) ∧
    (BooksModel.Get ⟨[], some [⟨7, 0, "Maus", 1991, 296, 1⟩], 8, [Stmt.deleteBooks 7]⟩ 7).1 =
      Except.ok ⟨7, 0, "Maus", 1991, 296, 1⟩ :=
  ⟨by decide, rfl, by decide, rfl⟩

/-- C10: for the valid create request ("Dune", 1965, 412) on an empty store,
`createBooksHandler` writes the envelope with the inserted book and then the
text of `fmt.Fprintf(w, "%+v\n", input)`, so the body does not end with the
envelope. -/
theorem createBooksHandler_writes_input_dump :
    (createBooksHandler ⟨[], none, 1, []⟩ 99 2024 (fun p => toString p)
      (some ⟨"Dune", 1965, 412⟩)).writes =
      [Write.envelope 201 "books" ⟨1, 99, "Dune", 1965, 412, 1⟩ [("Location", "/v1/books/1")],
        Write.text "\x7bTitle:Dune Year:1965 Pages:412\x7d\n"] ∧
    (∀ (db : DB) (now nowYear : Int) (fmtPages : Int → String) (body : Option CreateInput)
      (status : Nat) (key : String) (payload : Books) (headers : List (String × String)),
      (createBooksHandler db now nowYear fmtPages body).writes ≠
        [Write.envelope status key payload headers]) := by
  refine ⟨by decide, ?_⟩
  intro db now nowYear fmtPages body status key payload headers
  unfold createBooksHandler
  cases body with
  | none => simp
  | some input =>
    simp only
    split
    · simp
    · split <;> simp

/-! ## Deleting -/

/-- What `Delete` does to the table `books`: an id below 1 is
`ErrRecordNotFound` with the store untouched and no statement sent; an id of no
row is `ErrRecordNotFound` with the table unchanged; otherwise there is no
error, the rows of that id are gone and the other rows are what they were. -/
theorem Delete_books_table (db : DB) (id : Int) :
    (id < 1 → BooksModel.Delete db id = (some Error.ErrRecordNotFound, db)) ∧
    (1 ≤ id → (∀ r ∈ db.books, r.ID ≠ id) →
      (BooksModel.Delete db id).1 = some Error.ErrRecordNotFound ∧
      (BooksModel.Delete db id).2.books = db.books) ∧
    (1 ≤ id → (∃ r ∈ db.books, r.ID = id) →
      (BooksModel.Delete db id).1 = none ∧
      (BooksModel.Delete db id).2.books = db.books.filter (fun r => r.ID != id) ∧
      (∀ r ∈ (BooksModel.Delete db id).2.books, r.ID ≠ id)) := by
  refine ⟨?_, ?_, ?_⟩
  · intro h
    simp [BooksModel.Delete, h]
  · intro h hnone
    have hlt : ¬ id < 1 := by omega
    have hkeep : db.books.filter (fun r => r.ID != id) = db.books := by
      rw [List.filter_eq_self]
      intro r hr
      simpa using hnone r hr
    simp [BooksModel.Delete, hlt, hkeep]
  · intro h hsome
    have hlt : ¬ id < 1 := by omega
    have hlen : (db.books.filter (fun r => r.ID != id)).length < db.books.length := by
      rw [List.length_filter_lt_length_iff_exists]
      obtain ⟨r, hr, hrid⟩ := hsome
      exact ⟨r, hr, by simp [hrid]⟩
    have hne : (db.books.length - (db.books.filter (fun r => r.ID != id)).length == 0) =
        false := by
      simp only [beq_eq_false_iff_ne, ne_eq]
      omega
    simp only [BooksModel.Delete, hlt, if_false, hne, Bool.false_eq_true]
    refine ⟨trivial, trivial, ?_⟩
    intro r hr
    have := (List.mem_filter.mp hr).2
    simpa using this

end FinalSPA
